import Mathlib

/-!
Verification of the profile lifecycle state machine of
`src/backend/common/profile-manager.ts`.

The TypeScript class `ProfileManager` manages named profiles stored as
directories, with three durable settings keys (`LoggedInProfile`,
`ActiveProfiles`, `DeleteProfile`), an in-memory resolved-identity cache
(`loggedInUser`) and an in-memory pending-rename field (`profileToRename`).
We embed the class shallowly: the durable settings, the in-memory fields,
an abstract file system (the set of profile directory names) and a
restart-requested flag form one state record, and every method becomes a
state-passing Lean function translated line by line from the source.

External collaborators that are part of the repository but not present in
the source tree (the settings store `settings-manager`, `data-access`,
`restartApp`) are modelled from the spec where noted.  The filename
sanitizer is an npm package and is kept abstract: every operation takes a
`sanitize : String → String` parameter.  Fallible filesystem operations
(`fs.renameSync`, `deleteFolderRecursive`) take a boolean oracle telling
whether the call throws.
-/

namespace Firebot

/-- Modelled from the spec: the external Settings Store (the repository's
`settings-manager`, not under `src/`) is a durable key-value store for the
three global keys used by the profile manager; `getSetting` raises a
distinguishable "not found" condition when the key is absent (modelled as
`none`), `saveSetting` stores a value, `deleteSetting` removes the key. -/
structure Settings where
  loggedInProfile : Option String
  activeProfiles : Option (List String)
  deleteProfile : Option String
deriving DecidableEq, Repr

/-- In-memory fields of the `ProfileManager` class instance: the resolved
identity cache `loggedInUser` and the pending rename target
`profileToRename`.  Both start as `undefined` (here `none`) in a fresh
process and do not survive a restart. -/
structure Memory where
  loggedInUser : Option String
  profileToRename : Option String
deriving DecidableEq, Repr

/-- Full program state.
`bootstrap` models the legacy `global-settings` file read by
`dataAccess.getJsonDbInUserData("./global-settings")` (`none` when the read
throws).  `fs` is the set of profile directory names under the `profiles`
root.  `restartRequested` is set when `restartApp()` is called (modelled
from the spec: `restartApp` is repository code not under `src/`; it
terminates the process and relaunches it, so we record it as a flag). -/
structure St where
  settings : Settings
  mem : Memory
  bootstrap : Option (List String)
  fs : List String
  restartRequested : Bool
deriving DecidableEq, Repr

/-- JavaScript `Array.prototype.indexOf`: index of the first occurrence,
`-1` when absent. -/
def jsIndexOf (l : List String) (x : String) : Int :=
  match l with
  | [] => -1
  | a :: as =>
    if a = x then 0
    else
      let r := jsIndexOf as x
      if r < 0 then -1 else r + 1

/-- JavaScript indexed assignment `arr[i] = x` as used on the result of
`indexOf`: with `i = -1` it creates a non-index property, leaving the
array elements (and hence the value later serialized to settings)
unchanged. -/
def jsSetAt (l : List String) (i : Int) (x : String) : List String :=
  if 0 ≤ i then l.set i.toNat x else l

theorem jsIndexOf_of_not_mem {l : List String} {x : String} (h : x ∉ l) :
    jsIndexOf l x = -1 := by
  induction l with
  | nil => rfl
  | cons a as ih =>
    rw [List.mem_cons, not_or] at h
    have hr : jsIndexOf as x = -1 := ih h.2
    simp [jsIndexOf, Ne.symm h.1, hr]

theorem jsIndexOf_of_mem {l : List String} {x : String} (h : x ∈ l) :
    jsIndexOf l x > -1 ∧
      l.eraseIdx (jsIndexOf l x).toNat = l.erase x := by
  induction l with
  | nil => cases h
  | cons a as ih =>
    by_cases hax : a = x
    · subst hax
      refine ⟨by simp [jsIndexOf], ?_⟩
      simp [jsIndexOf, List.erase_cons]
    · rcases List.mem_cons.mp h with rfl | hmem
      · exact absurd rfl hax
      · obtain ⟨hpos, herase⟩ := ih hmem
        have hr : ¬jsIndexOf as x < 0 := by omega
        constructor
        · simp only [jsIndexOf, if_neg hax, if_neg hr]
          omega
        · have htn : (jsIndexOf as x + 1).toNat = (jsIndexOf as x).toNat + 1 := by
            omega
          simp only [jsIndexOf, if_neg hax, if_neg hr, htn, List.eraseIdx_cons_succ,
            herase, List.erase_cons, if_neg (by simp [hax] : ¬(a == x) = true)]

/-- Auxiliary: prefixing the accumulator of `Nat.toDigitsCore` never
shortens the output. -/
theorem length_le_toDigitsCore (b : Nat) :
    ∀ (f n : Nat) (l : List Char), l.length ≤ (Nat.toDigitsCore b f n l).length := by
  intro f
  induction f with
  | zero => intro n l; simp [Nat.toDigitsCore]
  | succ f ih =>
    intro n l
    simp only [Nat.toDigitsCore]
    split
    · simp
    · exact le_trans (by simp) (ih (n / b) (Nat.digitChar (n % b) :: l))

/-- The decimal representation of a natural number is never the empty
string. -/
theorem one_le_length_repr (n : Nat) : 1 ≤ (Nat.repr n).length := by
  show 1 ≤ (Nat.toDigits 10 n).asString.length
  rw [String.length, List.asString]
  simp only [Nat.toDigits, Nat.toDigitsCore]
  split
  · simp
  · exact le_trans (by simp) (length_le_toDigitsCore 10 n (n / 10) [Nat.digitChar (n % 10)])

/-- Auxiliary counting lemma driving termination of the collision loop:
if `q` is implied by `p` and some element of `l` satisfies `q` but not
`p`, then strictly fewer elements satisfy `p` than `q`. -/
theorem countP_le_countP {l : List String} {p q : String → Bool}
    (himp : ∀ a, p a = true → q a = true) :
    l.countP p ≤ l.countP q := by
  induction l with
  | nil => simp
  | cons a as ih =>
    rw [List.countP_cons, List.countP_cons]
    have : (if p a = true then 1 else 0) ≤ (if q a = true then 1 else 0) := by
      by_cases hpa : p a = true
      · rw [if_pos hpa, if_pos (himp a hpa)]
      · rw [if_neg hpa]
        exact Nat.zero_le _
    omega

theorem countP_lt_countP {l : List String} {p q : String → Bool}
    (himp : ∀ a, p a = true → q a = true) {x : String}
    (hx : x ∈ l) (hq : q x = true) (hp : ¬p x = true) :
    l.countP p < l.countP q := by
  induction l with
  | nil => cases hx
  | cons a as ih =>
    rw [List.countP_cons, List.countP_cons]
    rcases List.mem_cons.mp hx with rfl | hmem
    · rw [if_pos hq, if_neg hp]
      have : as.countP p ≤ as.countP q := countP_le_countP himp
      omega
    · have h1 : as.countP p < as.countP q := ih hmem
      have h2 : (if p a = true then 1 else 0) ≤ (if q a = true then 1 else 0) := by
        by_cases hpa : p a = true
        · rw [if_pos hpa, if_pos (himp a hpa)]
        · rw [if_neg hpa]
          exact Nat.zero_le _
      omega

/-- The collision-resolution `while` loop of `createNewProfile`
(lines 112–116) and `renameProfile` (lines 183–187): while the candidate
is in the active list, append the counter to the *current* candidate and
increment the counter. -/
def resolveCollision (activeProfiles : List String) (profileId : String)
    (counter : Nat) : String :=
  if profileId ∈ activeProfiles then
    resolveCollision activeProfiles (profileId ++ Nat.repr counter) (counter + 1)
  else
    profileId
termination_by activeProfiles.countP (fun a => profileId.length ≤ a.length)
decreasing_by
  rename_i hmem
  have hlen : profileId.length < (profileId ++ Nat.repr counter).length := by
    rw [String.length_append]
    have := one_le_length_repr counter
    omega
  exact countP_lt_countP
    (fun a ha => by
      simp only [decide_eq_true_eq] at ha ⊢
      omega)
    hmem
    (by simp)
    (by simp only [decide_eq_true_eq]; omega)

theorem resolveCollision_of_mem {l : List String} {id : String} {c : Nat}
    (h : id ∈ l) :
    resolveCollision l id c = resolveCollision l (id ++ Nat.repr c) (c + 1) := by
  rw [resolveCollision, if_pos h]

theorem resolveCollision_of_not_mem {l : List String} {id : String} {c : Nat}
    (h : id ∉ l) : resolveCollision l id c = id := by
  rw [resolveCollision, if_neg h]

theorem resolveCollision_not_mem_aux (l : List String) :
    ∀ (n : Nat) (id : String) (c : Nat),
      l.countP (fun a => id.length ≤ a.length) = n → resolveCollision l id c ∉ l := by
  intro n
  induction n using Nat.strong_induction_on with
  | _ n ih =>
    intro id c hn
    by_cases h : id ∈ l
    · rw [resolveCollision_of_mem h]
      have hlen : id.length < (id ++ Nat.repr c).length := by
        rw [String.length_append]
        have := one_le_length_repr c
        omega
      have hlt : l.countP (fun a => (id ++ Nat.repr c).length ≤ a.length) < n := by
        rw [← hn]
        exact countP_lt_countP
          (fun a ha => by
            simp only [decide_eq_true_eq] at ha ⊢
            omega)
          h
          (by simp)
          (by simp only [decide_eq_true_eq]; omega)
      exact ih _ hlt (id ++ Nat.repr c) (c + 1) rfl
    · rw [resolveCollision_of_not_mem h]
      exact h

/-- The result of the collision loop is never a member of the list it was
resolved against. -/
theorem resolveCollision_not_mem (l : List String) (id : String) (c : Nat) :
    resolveCollision l id c ∉ l :=
  resolveCollision_not_mem_aux l _ id c rfl

section Operations

variable (sanitize : String → String)

/-- Method `logInProfile` (lines 45–51): persist `LoggedInProfile` and call
`restartApp()`.  The parameter is an `Option` because internal callers can
pass an unresolved (`undefined`) id. -/
def logInProfile (profileId : Option String) (s : St) : St :=
  { s with
    settings := { s.settings with loggedInProfile := profileId }
    restartRequested := true }

/-- Method `createNewProfile` (lines 94–129): default or sanitize the
requested id, read `ActiveProfiles` (empty list when the read throws),
run the collision loop with counter starting at 1, push the resolved id,
save both settings, then log the profile in (which saves
`LoggedInProfile` again and restarts). -/
def createNewProfile (profileId? : Option String) (s : St) : St :=
  let base :=
    match profileId? with
    | none => "Main"
    | some p => if p = "" then "Main" else sanitize p
  let activeProfiles := s.settings.activeProfiles.getD []
  let profileId := resolveCollision activeProfiles base 1
  let activeProfiles := activeProfiles ++ [profileId]
  let s1 : St :=
    { s with
      settings :=
        { s.settings with
          activeProfiles := some activeProfiles
          loggedInProfile := some profileId } }
  logInProfile (some profileId) s1

/-- Method `getLoggedInProfile` (lines 134–162): return the cached id if
set; otherwise read `LoggedInProfile` (caching it on success); on a
key-not-found condition fall back to the legacy bootstrap store's
`activeProfiles` list (logging in its first element, which restarts), and
if that read throws too, create a default profile.  The fallback paths
return `undefined` (`none`) to the caller. -/
def getLoggedInProfile (s : St) : Option String × St :=
  match s.mem.loggedInUser with
  | some u => (some u, s)
  | none =>
    match s.settings.loggedInProfile with
    | some v => (some v, { s with mem := { s.mem with loggedInUser := some v } })
    | none =>
      match s.bootstrap with
      | some activeProfiles => (none, logInProfile activeProfiles.head? s)
      | none => (none, createNewProfile sanitize none s)

/-- Method `renameProfile` (lines 164–193): resolve the current id (for
the log line, but with the resolver's side effects), sanitize the new id
and reject empty results, read `ActiveProfiles` (empty on failure), run
the collision loop, record the result in the in-memory `profileToRename`
field and restart. -/
def renameProfile (newProfileId : String) (s : St) : St :=
  let s1 := (getLoggedInProfile sanitize s).2
  let sanitizedNewProfileId := sanitize newProfileId
  if sanitizedNewProfileId = "" then
    s1
  else
    let activeProfiles := s1.settings.activeProfiles.getD []
    let resolved := resolveCollision activeProfiles sanitizedNewProfileId 1
    { s1 with
      mem := { s1.mem with profileToRename := some resolved }
      restartRequested := true }

/-- Method `deleteProfile` (lines 197–206): resolve the current id, persist
it as the `DeleteProfile` marker and restart. -/
def deleteProfile (s : St) : St :=
  let r := getLoggedInProfile sanitize s
  { r.2 with
    settings := { r.2.settings with deleteProfile := r.1 }
    restartRequested := true }

/-- Method `hasProfileRename` (line 210). -/
def hasProfileRename (s : St) : Bool :=
  s.mem.profileToRename.isSome

/-- Method `handleProfileRename` (lines 212–253), the rename apply phase.
`renameOk` is the oracle for whether `fs.renameSync` succeeds (it throws
e.g. when the target path already exists).  Reading `ActiveProfiles`
throws when the key is absent, which the outer `catch` turns into an
abort; a failed directory rename aborts before any settings write; on
success the old id's position in the list is overwritten with the new id
(position `-1`, i.e. a JS out-of-array property write leaving the
elements unchanged, when the current id is not in the list) and both
settings are saved.  The in-memory `profileToRename` field is never
written by this method. -/
def handleProfileRename (renameOk : Bool) (s : St) : St :=
  if hasProfileRename s = false then
    s
  else
    let r := getLoggedInProfile sanitize s
    let s1 := r.2
    let newProfileId? := s1.mem.profileToRename
    match s1.settings.activeProfiles with
    | none => s1
    | some activeProfiles =>
      match r.1, newProfileId? with
      | some currentProfileId, some newProfileId =>
        if newProfileId = "" then
          s1
        else if renameOk = false then
          s1
        else
          let s2 := { s1 with fs := newProfileId :: s1.fs.erase currentProfileId }
          let profilePosition := jsIndexOf activeProfiles currentProfileId
          let activeProfiles := jsSetAt activeProfiles profilePosition newProfileId
          { s2 with
            settings :=
              { s2.settings with
                activeProfiles := some activeProfiles
                loggedInProfile := some newProfileId } }
      | _, _ => s1

/-- Method `handleProfileDeletion` (lines 255–307), the delete apply phase.
The two settings reads share one `try`: when `DeleteProfile` is absent the
first read throws and `ActiveProfiles` is never read.  `deleteOk` is the
oracle for whether `dataAccess.deleteFolderRecursive` succeeds (modelled
from the spec: `data-access` is repository code not under `src/`; the
spec says it removes the directory recursively, best-effort).  With an
absent marker the phase returns immediately.  A throwing directory
removal, or an absent `ActiveProfiles` (whose `undefined` value makes the
`indexOf` call throw), is caught by the outer `catch` and aborts the
phase with no further writes — in particular without clearing the marker.
On the success path the id is spliced out of the list when present (only
then is the list saved back), `LoggedInProfile` is set to the first
remaining element or deleted when none remain (modelled from the spec:
`deleteSetting` removes the key), and finally the marker is deleted. -/
def handleProfileDeletion (deleteOk : Bool) (s : St) : St :=
  let deletedProfile? := s.settings.deleteProfile
  let activeProfiles? :=
    if deletedProfile?.isSome then s.settings.activeProfiles else none
  match deletedProfile? with
  | none => s
  | some deletedProfile =>
    if deleteOk = false then
      s
    else
      let s1 := { s with fs := s.fs.erase deletedProfile }
      match activeProfiles? with
      | none => s1
      | some activeProfiles =>
        let profilePosition := jsIndexOf activeProfiles deletedProfile
        let p :=
          if profilePosition > -1 then
            let ap := activeProfiles.eraseIdx profilePosition.toNat
            (ap, { s1 with settings := { s1.settings with activeProfiles := some ap } })
          else
            (activeProfiles, s1)
        let s3 :=
          if p.1.length > 0 then
            { p.2 with settings := { p.2.settings with loggedInProfile := p.1.head? } }
          else
            { p.2 with settings := { p.2.settings with loggedInProfile := none } }
        { s3 with settings := { s3.settings with deleteProfile := none } }

end Operations

/-- The in-memory fields of a freshly started process: both `loggedInUser`
and `profileToRename` are `undefined`. -/
def freshMemory : Memory :=
  { loggedInUser := none, profileToRename := none }

/-- Modelled from the spec: `restartApp` (repository code not under
`src/`) terminates the process and starts a new one, so the durable state
survives while the in-memory fields reset and no restart is pending. -/
def coldRestart (s : St) : St :=
  { s with mem := freshMemory, restartRequested := false }

/-- The `ActiveProfiles` list as the operations read it: the stored value,
or the empty list when the key is absent. -/
def activeList (s : St) : List String :=
  s.settings.activeProfiles.getD []

/-- One step of the profile lifecycle state machine.  Request operations
and apply phases run only while no restart is pending (every restarting
operation ends its session, and the apply phases run at cold start); the
`restart` step performs the pending restart, resetting the in-memory
fields. -/
inductive Step (sanitize : String → String) : St → St → Prop where
  | create (profileId? : Option String) (s : St) :
      s.restartRequested = false →
      Step sanitize s (createNewProfile sanitize profileId? s)
  | switch (profileId : String) (s : St) :
      s.restartRequested = false →
      Step sanitize s (logInProfile (some profileId) s)
  | resolve (s : St) :
      s.restartRequested = false →
      Step sanitize s (getLoggedInProfile sanitize s).2
  | renameRequest (newProfileId : String) (s : St) :
      s.restartRequested = false →
      Step sanitize s (renameProfile sanitize newProfileId s)
  | deleteRequest (s : St) :
      s.restartRequested = false →
      Step sanitize s (deleteProfile sanitize s)
  | applyRename (renameOk : Bool) (s : St) :
      s.restartRequested = false →
      Step sanitize s (handleProfileRename sanitize renameOk s)
  | applyDelete (deleteOk : Bool) (s : St) :
      s.restartRequested = false →
      Step sanitize s (handleProfileDeletion deleteOk s)
  | restart (s : St) :
      s.restartRequested = true →
      Step sanitize s (coldRestart s)

/-- States reachable from any freshly started process whose stored
`ActiveProfiles` list is duplicate-free. -/
inductive Reachable (sanitize : String → String) : St → Prop where
  | init (s : St) :
      (activeList s).Nodup → s.mem = freshMemory → s.restartRequested = false →
      Reachable sanitize s
  | step {s t : St} : Reachable sanitize s → Step sanitize s t → Reachable sanitize t

/-- Inductive invariant: the list is duplicate-free, and a pending
in-memory rename target implies a pending restart (the rename request is
the only writer of the field and it always restarts). -/
def Inv (s : St) : Prop :=
  (activeList s).Nodup ∧ (s.mem.profileToRename.isSome → s.restartRequested = true)

/-! ### Concrete states used by witnesses and counterexamples -/

/-- Identity sanitizer: serves as a concrete `sanitize` for inputs that are
already filesystem-safe. -/
def idSan : String → String := fun s => s

/-- A state whose active list is `["Main", "Main1"]`. -/
def stMain : St :=
  { settings :=
      { loggedInProfile := some "Main"
        activeProfiles := some ["Main", "Main1"]
        deleteProfile := none }
    mem := freshMemory
    bootstrap := none
    fs := ["Main", "Main1"]
    restartRequested := false }

/-- A cold-start state in which profile `"A"` is marked for deletion. -/
def stDel : St :=
  { settings :=
      { loggedInProfile := some "A"
        activeProfiles := some ["A"]
        deleteProfile := some "A" }
    mem := freshMemory
    bootstrap := none
    fs := ["A"]
    restartRequested := false }

/-- A cold-start state with two active profiles in which profile `"A"` is
marked for deletion. -/
def stDel2 : St :=
  { settings :=
      { loggedInProfile := some "A"
        activeProfiles := some ["A", "B"]
        deleteProfile := some "A" }
    mem := freshMemory
    bootstrap := none
    fs := ["A", "B"]
    restartRequested := false }

/-- A quiescent state with one active profile and no pending markers. -/
def stQuiet : St :=
  { settings :=
      { loggedInProfile := some "Main"
        activeProfiles := some ["Main"]
        deleteProfile := none }
    mem := freshMemory
    bootstrap := none
    fs := ["Main"]
    restartRequested := false }

/-- A running-session state whose identity cache is already resolved. -/
def stCached : St :=
  { settings :=
      { loggedInProfile := some "Main"
        activeProfiles := some ["Main"]
        deleteProfile := none }
    mem := { loggedInUser := some "Main", profileToRename := none }
    bootstrap := none
    fs := ["Main"]
    restartRequested := false }

/-- A state with a pending in-memory rename of the active profile `"A"` to
`"B"`. -/
def stRen : St :=
  { settings :=
      { loggedInProfile := some "A"
        activeProfiles := some ["A"]
        deleteProfile := none }
    mem := { loggedInUser := none, profileToRename := some "B" }
    bootstrap := none
    fs := ["A"]
    restartRequested := false }

/-- A state with a pending rename to `"C"` whose active profile `"A"` does
not occur in the `ActiveProfiles` list. -/
def stRenGone : St :=
  { settings :=
      { loggedInProfile := some "A"
        activeProfiles := some ["B"]
        deleteProfile := none }
    mem := { loggedInUser := none, profileToRename := some "C" }
    bootstrap := none
    fs := ["A", "B"]
    restartRequested := false }

theorem nodup_append_resolve {l : List String} (h : l.Nodup) (base : String)
    (c : Nat) : (l ++ [resolveCollision l base c]).Nodup := by
  refine List.Nodup.append h (List.nodup_singleton _) ?_
  intro x hx hmem
  rw [List.mem_singleton] at hmem
  subst hmem
  exact resolveCollision_not_mem l base c hx

theorem createNewProfile_nodup (sanitize : String → String)
    (profileId? : Option String) (s : St) (h : (activeList s).Nodup) :
    (activeList (createNewProfile sanitize profileId? s)).Nodup := by
  cases profileId? with
  | none => exact nodup_append_resolve h _ _
  | some p => exact nodup_append_resolve h _ _

theorem createNewProfile_mem (sanitize : String → String)
    (profileId? : Option String) (s : St) :
    (createNewProfile sanitize profileId? s).mem = s.mem := by
  cases profileId? <;> rfl

theorem getLoggedInProfile_nodup (sanitize : String → String) (s : St)
    (h : (activeList s).Nodup) :
    (activeList (getLoggedInProfile sanitize s).2).Nodup := by
  cases hu : s.mem.loggedInUser with
  | some u => simpa [getLoggedInProfile, hu] using h
  | none =>
    cases hv : s.settings.loggedInProfile with
    | some v => simpa [getLoggedInProfile, hu, hv, activeList] using h
    | none =>
      cases hb : s.bootstrap with
      | some l => simpa [getLoggedInProfile, hu, hv, hb, logInProfile, activeList] using h
      | none =>
        simpa [getLoggedInProfile, hu, hv, hb] using
          createNewProfile_nodup sanitize none s h

theorem getLoggedInProfile_profileToRename (sanitize : String → String)
    (s : St) :
    (getLoggedInProfile sanitize s).2.mem.profileToRename
      = s.mem.profileToRename := by
  cases hu : s.mem.loggedInUser with
  | some u => simp [getLoggedInProfile, hu]
  | none =>
    cases hv : s.settings.loggedInProfile with
    | some v => simp [getLoggedInProfile, hu, hv]
    | none =>
      cases hb : s.bootstrap with
      | some l => simp [getLoggedInProfile, hu, hv, hb, logInProfile]
      | none =>
        simp [getLoggedInProfile, hu, hv, hb, createNewProfile_mem]

/-- When the resolver returns an id it took the cache path or the settings
path, neither of which changes anything but the cache field. -/
theorem getLoggedInProfile_frame_of_some (sanitize : String → String)
    (s : St) (c : String) (h : (getLoggedInProfile sanitize s).1 = some c) :
    (getLoggedInProfile sanitize s).2.settings = s.settings ∧
    (getLoggedInProfile sanitize s).2.fs = s.fs ∧
    (getLoggedInProfile sanitize s).2.mem.profileToRename = s.mem.profileToRename ∧
    (getLoggedInProfile sanitize s).2.restartRequested = s.restartRequested ∧
    (getLoggedInProfile sanitize s).2.bootstrap = s.bootstrap := by
  cases hu : s.mem.loggedInUser with
  | some u => simp [getLoggedInProfile, hu]
  | none =>
    cases hv : s.settings.loggedInProfile with
    | some v => simp [getLoggedInProfile, hu, hv]
    | none =>
      cases hb : s.bootstrap with
      | some l => simp [getLoggedInProfile, hu, hv, hb] at h
      | none => simp [getLoggedInProfile, hu, hv, hb] at h

theorem handleProfileRename_of_no_pending (sanitize : String → String)
    (renameOk : Bool) (s : St) (h : s.mem.profileToRename = none) :
    handleProfileRename sanitize renameOk s = s := by
  simp [handleProfileRename, hasProfileRename, h]

theorem handleProfileDeletion_nodup (deleteOk : Bool) (s : St)
    (h : (activeList s).Nodup) :
    (activeList (handleProfileDeletion deleteOk s)).Nodup := by
  cases hd : s.settings.deleteProfile with
  | none => simpa [handleProfileDeletion, hd] using h
  | some d =>
    cases deleteOk with
    | false => simpa [handleProfileDeletion, hd] using h
    | true =>
      cases ha : s.settings.activeProfiles with
      | none => simp [handleProfileDeletion, hd, ha, activeList]
      | some l =>
        have hl : activeList s = l := by simp [activeList, ha]
        rw [hl] at h
        by_cases hpos : jsIndexOf l d > -1
        · by_cases hlen : (l.eraseIdx (jsIndexOf l d).toNat).length > 0 <;>
            simpa [handleProfileDeletion, hd, ha, hpos, hlen, activeList] using
              (List.eraseIdx_sublist l (jsIndexOf l d).toNat).nodup h
        · by_cases hlen : l.length > 0 <;>
            simpa [handleProfileDeletion, hd, ha, hpos, hlen, activeList] using h

theorem handleProfileDeletion_mem (deleteOk : Bool) (s : St) :
    (handleProfileDeletion deleteOk s).mem = s.mem := by
  cases hd : s.settings.deleteProfile with
  | none => simp [handleProfileDeletion, hd]
  | some d =>
    cases deleteOk with
    | false => simp [handleProfileDeletion, hd]
    | true =>
      cases ha : s.settings.activeProfiles with
      | none => simp [handleProfileDeletion, hd, ha]
      | some l =>
        by_cases hpos : jsIndexOf l d > -1
        · by_cases hlen : (l.eraseIdx (jsIndexOf l d).toNat).length > 0 <;>
            simp [handleProfileDeletion, hd, ha, hpos, hlen]
        · by_cases hlen : l.length > 0 <;>
            simp [handleProfileDeletion, hd, ha, hpos, hlen]

theorem handleProfileDeletion_restart (deleteOk : Bool) (s : St) :
    (handleProfileDeletion deleteOk s).restartRequested = s.restartRequested := by
  cases hd : s.settings.deleteProfile with
  | none => simp [handleProfileDeletion, hd]
  | some d =>
    cases deleteOk with
    | false => simp [handleProfileDeletion, hd]
    | true =>
      cases ha : s.settings.activeProfiles with
      | none => simp [handleProfileDeletion, hd, ha]
      | some l =>
        by_cases hpos : jsIndexOf l d > -1
        · by_cases hlen : (l.eraseIdx (jsIndexOf l d).toNat).length > 0 <;>
            simp [handleProfileDeletion, hd, ha, hpos, hlen]
        · by_cases hlen : l.length > 0 <;>
            simp [handleProfileDeletion, hd, ha, hpos, hlen]

theorem step_inv {sanitize : String → String} {s t : St}
    (hs : Inv s) (hstep : Step sanitize s t) : Inv t := by
  obtain ⟨hnodup, hpend⟩ := hs
  cases hstep with
  | create profileId? s hflag =>
    refine ⟨createNewProfile_nodup sanitize profileId? s hnodup, fun _ => ?_⟩
    cases profileId? <;> rfl
  | switch profileId s hflag =>
    exact ⟨hnodup, fun _ => rfl⟩
  | resolve s hflag =>
    refine ⟨getLoggedInProfile_nodup sanitize s hnodup, fun hp => ?_⟩
    rw [getLoggedInProfile_profileToRename] at hp
    exact absurd (hpend hp) (by rw [hflag]; exact Bool.false_ne_true)
  | renameRequest newProfileId s hflag =>
    have hpnone : s.mem.profileToRename = none := by
      cases hp : s.mem.profileToRename with
      | none => rfl
      | some x => exact absurd (hpend (by rw [hp]; rfl)) (by rw [hflag]; exact Bool.false_ne_true)
    constructor
    · unfold renameProfile
      by_cases hsan : sanitize newProfileId = "" <;>
        simpa [hsan, activeList] using getLoggedInProfile_nodup sanitize s hnodup
    · intro hp
      unfold renameProfile at hp ⊢
      by_cases hsan : sanitize newProfileId = ""
      · rw [if_pos hsan] at hp
        rw [getLoggedInProfile_profileToRename] at hp
        exact absurd (hpend hp) (by rw [hflag]; exact Bool.false_ne_true)
      · rw [if_neg hsan]
  | deleteRequest s hflag =>
    refine ⟨?_, fun _ => rfl⟩
    simpa [deleteProfile, activeList] using getLoggedInProfile_nodup sanitize s hnodup
  | applyRename renameOk s hflag =>
    have hpnone : s.mem.profileToRename = none := by
      cases hp : s.mem.profileToRename with
      | none => rfl
      | some x => exact absurd (hpend (by rw [hp]; rfl)) (by rw [hflag]; exact Bool.false_ne_true)
    rw [handleProfileRename_of_no_pending sanitize renameOk s hpnone]
    exact ⟨hnodup, hpend⟩
  | applyDelete deleteOk s hflag =>
    refine ⟨handleProfileDeletion_nodup deleteOk s hnodup, fun hp => ?_⟩
    rw [handleProfileDeletion_mem] at hp
    rw [handleProfileDeletion_restart]
    exact hpend hp
  | restart s hflag =>
    exact ⟨hnodup, fun hp => by simp [coldRestart, freshMemory] at hp⟩

theorem reachable_inv {sanitize : String → String} {s : St}
    (h : Reachable sanitize s) : Inv s := by
  induction h with
  | init s hnodup hmem hflag =>
    exact ⟨hnodup, fun hp => by rw [hmem] at hp; simp [freshMemory] at hp⟩
  | step _ hstep ih => exact step_inv ih hstep

/-! ### Claim C2 -/

/-- Claim C2, counterexample: with the `DeleteProfile` marker present, a
run of the delete apply phase in which the recursive directory removal
throws aborts through the outer catch with the marker still set — the
marker is not cleared on every abort, contrary to the claim. -/
theorem handleProfileDeletion_abort_keeps_marker :
    (handleProfileDeletion false stDel).settings.deleteProfile ≠ none := by
  decide

/-- Claim C2 (amended): the `DeleteProfile` marker is cleared when the
delete apply phase runs to completion (marker present, directory removal
succeeds, `ActiveProfiles` readable), but when the phase aborts on an
unexpected error — here a throwing directory removal — it returns from the
catch block without clearing the marker, leaving the whole state
untouched. -/
theorem handleProfileDeletion_marker_cleared_iff_success (s : St) (d : String)
    (l : List String) (hd : s.settings.deleteProfile = some d) :
    (s.settings.activeProfiles = some l →
      (handleProfileDeletion true s).settings.deleteProfile = none) ∧
    handleProfileDeletion false s = s := by
  constructor
  · intro ha
    by_cases hpos : jsIndexOf l d > -1
    · by_cases hlen : (l.eraseIdx (jsIndexOf l d).toNat).length > 0 <;>
        simp [handleProfileDeletion, hd, ha, hpos, hlen]
    · by_cases hlen : l.length > 0 <;>
        simp [handleProfileDeletion, hd, ha, hpos, hlen]
  · simp [handleProfileDeletion, hd]

/-- Claim C2, witness for the amended theorem at a concrete state. -/
theorem handleProfileDeletion_marker_cleared_iff_success_witness :
    (handleProfileDeletion true stDel).settings.deleteProfile = none ∧
    handleProfileDeletion false stDel = stDel :=
  ⟨(handleProfileDeletion_marker_cleared_iff_success stDel "A" ["A"] rfl).1 rfl,
   (handleProfileDeletion_marker_cleared_iff_success stDel "A" ["A"] rfl).2⟩

/-! ### Claim C6 -/

/-- Claim C6: with no `DeleteProfile` marker present the delete apply phase
is a no-op — the whole state, settings and filesystem included, is
unchanged — and running the phase twice in a row (the second call finding
the marker cleared by the first) produces no further change. -/
theorem handleProfileDeletion_noop_idempotent (deleteOk deleteOk2 : Bool) (s : St) :
    (s.settings.deleteProfile = none → handleProfileDeletion deleteOk s = s) ∧
    ((handleProfileDeletion deleteOk s).settings.deleteProfile = none →
      handleProfileDeletion deleteOk2 (handleProfileDeletion deleteOk s)
        = handleProfileDeletion deleteOk s) := by
  have key : ∀ (ok : Bool) (t : St), t.settings.deleteProfile = none →
      handleProfileDeletion ok t = t := fun ok t ht => by
    simp [handleProfileDeletion, ht]
  exact ⟨key deleteOk s, fun h => key deleteOk2 _ h⟩

/-- Claim C6, witness at a concrete marker-free state. -/
theorem handleProfileDeletion_noop_idempotent_witness :
    handleProfileDeletion true stQuiet = stQuiet :=
  (handleProfileDeletion_noop_idempotent true true stQuiet).1 rfl

/-! ### Claim C7 -/

/-- Claim C7: when the active profile id is already resolved (the
in-memory cache is set), a rename request whose target sanitizes to the
empty string is rejected with no side effects at all: the returned state —
`ActiveProfiles`, `LoggedInProfile`, both pending markers, the filesystem
and the restart flag included — is the input state. -/
theorem renameProfile_invalid_target_noop (sanitize : String → String)
    (newProfileId : String) (s : St) (u : String)
    (hc : s.mem.loggedInUser = some u)
    (hs : sanitize newProfileId = "") :
    renameProfile sanitize newProfileId s = s := by
  have h1 : getLoggedInProfile sanitize s = (some u, s) := by
    simp [getLoggedInProfile, hc]
  simp [renameProfile, h1, hs]

/-- Claim C7, witness: a sanitizer mapping everything to the empty string
(an all-illegal-characters target) leaves a cache-resolved state
untouched. -/
theorem renameProfile_invalid_target_noop_witness :
    renameProfile (fun _ => "") "///" stCached = stCached :=
  renameProfile_invalid_target_noop (fun _ => "") "///" stCached "Main" rfl rfl

/-! ### Claim C8 -/

/-- Claim C8: the switch operation performs no membership validation — for
every id, member of `ActiveProfiles` or not, it persists
`LoggedInProfile = id`, triggers a restart, and leaves `ActiveProfiles`,
the `DeleteProfile` marker, the pending-rename marker and the filesystem
unchanged. -/
theorem logInProfile_switch_contract (profileId : String) (s : St) :
    (logInProfile (some profileId) s).settings.loggedInProfile = some profileId ∧
    (logInProfile (some profileId) s).restartRequested = true ∧
    (logInProfile (some profileId) s).settings.activeProfiles
      = s.settings.activeProfiles ∧
    (logInProfile (some profileId) s).settings.deleteProfile
      = s.settings.deleteProfile ∧
    (logInProfile (some profileId) s).mem.profileToRename
      = s.mem.profileToRename ∧
    (logInProfile (some profileId) s).fs = s.fs :=
  ⟨rfl, rfl, rfl, rfl, rfl, rfl⟩

/-! ### Claim C5 -/

/-- Claim C5: a successful run of the delete apply phase removes the
marked id from `ActiveProfiles` (splicing out its first — under
`Nodup`, only — occurrence; when the id is not in the list the list keeps
its value, which equally contains no occurrence of the id), and afterwards
`LoggedInProfile` is the first element of the resulting list, or the key
is absent (`none`, not `some ""`) when the resulting list is empty; both
cases are captured by `List.head?`. -/
theorem handleProfileDeletion_success_result (s : St) (d : String)
    (l : List String)
    (hd : s.settings.deleteProfile = some d)
    (hl : s.settings.activeProfiles = some l)
    (hnd : l.Nodup) :
    (handleProfileDeletion true s).settings.activeProfiles
      = some (l.erase d) ∧
    d ∉ l.erase d ∧
    (handleProfileDeletion true s).settings.loggedInProfile
      = (l.erase d).head? := by
  by_cases hm : d ∈ l
  · obtain ⟨hpos, herase⟩ := jsIndexOf_of_mem hm
    have hdd : d ∉ l.erase d := hnd.not_mem_erase
    by_cases hlen : 0 < (l.erase d).length
    · refine ⟨?_, hdd, ?_⟩ <;>
        simp [handleProfileDeletion, hd, hl, hpos, herase, hlen]
    · have hnil : l.erase d = [] := by
        rw [← herase]
        refine List.length_eq_zero.mp ?_
        rw [herase]
        omega
      refine ⟨?_, hdd, ?_⟩ <;>
        simp [handleProfileDeletion, hd, hl, hpos, herase, hnil]
  · have hpos : ¬jsIndexOf l d > -1 := by
      rw [jsIndexOf_of_not_mem hm]
      omega
    have hnoerase : l.erase d = l := List.erase_of_not_mem hm
    by_cases hlen : 0 < l.length
    · refine ⟨?_, by rw [hnoerase]; exact hm, ?_⟩ <;>
        simp [handleProfileDeletion, hd, hl, hpos, hlen, hnoerase]
    · have hnil : l = [] := List.length_eq_zero.mp (by omega)
      subst hnil
      refine ⟨?_, by simp, ?_⟩ <;>
        simp [handleProfileDeletion, hd, hl, jsIndexOf]

/-- Claim C5, witness: deleting `"A"` out of `["A", "B"]` leaves
`ActiveProfiles = ["B"]` and `LoggedInProfile = "B"`. -/
theorem handleProfileDeletion_success_result_witness :
    (handleProfileDeletion true stDel2).settings.activeProfiles
      = some (["A", "B"].erase "A") ∧
    "A" ∉ ["A", "B"].erase "A" ∧
    (handleProfileDeletion true stDel2).settings.loggedInProfile
      = (["A", "B"].erase "A").head? :=
  handleProfileDeletion_success_result stDel2 "A" ["A", "B"] rfl rfl (by decide)

/-! ### Claim C4 -/

/-- Claim C4: a rename apply run that reaches and fails the on-disk
directory rename (a pending target is present and non-empty, the current
id resolves, `ActiveProfiles` is readable, and `fs.renameSync` throws)
leaves `ActiveProfiles` and `LoggedInProfile` exactly as they were before
the attempt — no settings mutation on filesystem failure. -/
theorem handleProfileRename_fs_failure_frame (sanitize : String → String)
    (s : St) (n c : String) (l : List String)
    (hp : s.mem.profileToRename = some n)
    (hc : (getLoggedInProfile sanitize s).1 = some c)
    (hn : n ≠ "")
    (hl : s.settings.activeProfiles = some l) :
    (handleProfileRename sanitize false s).settings.activeProfiles
      = s.settings.activeProfiles ∧
    (handleProfileRename sanitize false s).settings.loggedInProfile
      = s.settings.loggedInProfile := by
  obtain ⟨hset, -, hpend, -, -⟩ := getLoggedInProfile_frame_of_some sanitize s c hc
  have ha2 : (getLoggedInProfile sanitize s).2.settings.activeProfiles = some l := by
    rw [hset, hl]
  have hp2 : (getLoggedInProfile sanitize s).2.mem.profileToRename = some n := by
    rw [hpend, hp]
  have h1 : handleProfileRename sanitize false s = (getLoggedInProfile sanitize s).2 := by
    simp [handleProfileRename, hasProfileRename, hp, ha2, hc, hp2, hn]
  rw [h1, hset]
  exact ⟨rfl, rfl⟩

/-- Claim C4, witness: a failing directory rename with pending target
`"B"` on active list `["A"]` changes neither setting. -/
theorem handleProfileRename_fs_failure_frame_witness :
    (handleProfileRename idSan false stRen).settings.activeProfiles
      = stRen.settings.activeProfiles ∧
    (handleProfileRename idSan false stRen).settings.loggedInProfile
      = stRen.settings.loggedInProfile :=
  handleProfileRename_fs_failure_frame idSan stRen "B" "A" ["A"] rfl rfl
    (by decide) rfl

/-! ### Claim C10 -/

/-- Claim C10: when the rename apply phase succeeds at the directory
rename but the resolved current id is not an element of `ActiveProfiles`,
the `indexOf` lookup yields `-1`, the indexed write creates an
out-of-range property and the saved list keeps exactly its old elements —
yet `LoggedInProfile` is still set to the new id, which therefore need not
be a member of `ActiveProfiles` afterwards. -/
theorem handleProfileRename_current_missing (sanitize : String → String)
    (s : St) (n c : String) (l : List String)
    (hp : s.mem.profileToRename = some n)
    (hc : (getLoggedInProfile sanitize s).1 = some c)
    (hn : n ≠ "")
    (hl : s.settings.activeProfiles = some l)
    (hcl : c ∉ l) :
    (handleProfileRename sanitize true s).settings.activeProfiles = some l ∧
    (handleProfileRename sanitize true s).settings.loggedInProfile = some n := by
  obtain ⟨hset, -, hpend, -, -⟩ := getLoggedInProfile_frame_of_some sanitize s c hc
  have ha2 : (getLoggedInProfile sanitize s).2.settings.activeProfiles = some l := by
    rw [hset, hl]
  have hp2 : (getLoggedInProfile sanitize s).2.mem.profileToRename = some n := by
    rw [hpend, hp]
  have hidx : jsIndexOf l c = -1 := jsIndexOf_of_not_mem hcl
  have hsetat : jsSetAt l (jsIndexOf l c) n = l := by
    rw [hidx]
    simp [jsSetAt]
  constructor <;>
    simp [handleProfileRename, hasProfileRename, hp, ha2, hc, hp2, hn, hsetat]

/-- Claim C10, witness: renaming current profile `"A"` (absent from the
list `["B"]`) to `"C"` leaves the list `["B"]` while `LoggedInProfile`
becomes `"C"`, no longer a member of the list. -/
theorem handleProfileRename_current_missing_witness :
    (handleProfileRename idSan true stRenGone).settings.activeProfiles
      = some ["B"] ∧
    (handleProfileRename idSan true stRenGone).settings.loggedInProfile
      = some "C" :=
  handleProfileRename_current_missing idSan stRenGone "C" "A" ["B"] rfl rfl
    (by decide) rfl (by decide)

/-! ### Claim C3 -/

/-- Claim C3, counterexample: a successful rename apply run (pending
target `"B"`, current id `"A"` resolved, directory rename succeeds) ends
with the pending-rename marker still holding `"B"` — the method never
writes `profileToRename`, so the marker is not cleared once the phase has
run, contrary to the claim. -/
theorem handleProfileRename_marker_not_cleared :
    (handleProfileRename idSan true stRen).mem.profileToRename ≠ none := by
  decide

/-- Claim C3 (amended): the rename apply phase never clears the in-memory
pending-rename marker: after any run — pending target present or not,
success or abort alike — `profileToRename` holds exactly its previous
value.  The marker is only discarded because a process restart resets the
in-memory fields. -/
theorem handleProfileRename_preserves_marker (sanitize : String → String)
    (renameOk : Bool) (s : St) :
    (handleProfileRename sanitize renameOk s).mem.profileToRename
      = s.mem.profileToRename := by
  have hmemr := getLoggedInProfile_profileToRename sanitize s
  by_cases hp : hasProfileRename s = false
  · rw [handleProfileRename, if_pos hp]
  · rw [handleProfileRename, if_neg hp]
    cases ha : (getLoggedInProfile sanitize s).2.settings.activeProfiles with
    | none => simpa [ha] using hmemr
    | some l =>
      cases hc : (getLoggedInProfile sanitize s).1 with
      | none => simpa [ha, hc] using hmemr
      | some cur =>
        cases hn : (getLoggedInProfile sanitize s).2.mem.profileToRename with
        | none => simpa [ha, hc, hn] using hmemr
        | some newId =>
          by_cases hne : newId = ""
          · simpa [ha, hc, hn, hne] using hmemr
          · cases renameOk with
            | false => simpa [ha, hc, hn, hne] using hmemr
            | true => simpa [ha, hc, hn, hne] using hmemr

/-! ### Claim C1 -/

/-- Concrete run of the collision loop on the list `["Main", "Main1"]`:
the suffix is appended to the evolving candidate, so the loop visits
`"Main"`, `"Main1"`, `"Main12"`. -/
theorem resolveCollision_main_example :
    resolveCollision ["Main", "Main1"] "Main" 1 = "Main12" := by
  rw [@resolveCollision_of_mem ["Main", "Main1"] "Main" 1 (by decide),
    @resolveCollision_of_mem ["Main", "Main1"] ("Main" ++ Nat.repr 1) 2 (by decide),
    @resolveCollision_of_not_mem ["Main", "Main1"]
      ("Main" ++ Nat.repr 1 ++ Nat.repr 2) 3 (by decide)]
  decide

/-- Claim C1, counterexample: with `ActiveProfiles = ["Main", "Main1"]`
and a create request for `"Main"`, the resolved id recorded in
`LoggedInProfile` is not `"Main2"` (it is `"Main12"`): the counter is
appended to the current candidate, not to the sanitized base. -/
theorem createNewProfile_collision_counterexample :
    (createNewProfile idSan (some "Main") stMain).settings.loggedInProfile
      ≠ some "Main2" := by
  have h : (createNewProfile idSan (some "Main") stMain).settings.loggedInProfile
      = some "Main12" := by
    simp [createNewProfile, logInProfile, idSan, stMain, freshMemory,
      resolveCollision_main_example]
  rw [h]
  decide

/-- Claim C1 (amended): when the sanitized candidate collides with the
`ActiveProfiles` list, the resolved id is found by repeatedly appending
the increasing counter (1, 2, 3, …) to the *current* candidate — suffixes
accumulate — re-testing membership each time; the create operation logs in
the id resolved this way, and with `ActiveProfiles = ["Main", "Main1"]`
and a create request for `"Main"` the resolved id is `"Main12"`. -/
theorem createNewProfile_collision_accumulates (sanitize : String → String)
    (l : List String) (id : String) (c : Nat) (s : St) (p : String) :
    (id ∈ l → resolveCollision l id c = resolveCollision l (id ++ Nat.repr c) (c + 1)) ∧
    (id ∉ l → resolveCollision l id c = id) ∧
    (p ≠ "" → (createNewProfile sanitize (some p) s).settings.loggedInProfile
      = some (resolveCollision (activeList s) (sanitize p) 1)) ∧
    (createNewProfile idSan (some "Main") stMain).settings.loggedInProfile
      = some "Main12" := by
  refine ⟨resolveCollision_of_mem, resolveCollision_of_not_mem, fun hp => ?_, ?_⟩
  · simp [createNewProfile, logInProfile, hp, activeList]
  · simp [createNewProfile, logInProfile, idSan, stMain, freshMemory,
      resolveCollision_main_example]

/-- Claim C1, witness for the amended theorem: one collision step from
`"Main"`, the terminal step at `"Main12"`, and the create-operation result
on the concrete state, all at concrete inputs. -/
theorem createNewProfile_collision_accumulates_witness :
    resolveCollision ["Main", "Main1"] "Main" 1
      = resolveCollision ["Main", "Main1"] ("Main" ++ Nat.repr 1) 2 ∧
    resolveCollision ["Main", "Main1"] "Main12" 3 = "Main12" ∧
    (createNewProfile idSan (some "Main") stMain).settings.loggedInProfile
      = some (resolveCollision (activeList stMain) (idSan "Main") 1) :=
  ⟨(createNewProfile_collision_accumulates idSan ["Main", "Main1"] "Main" 1
      stMain "Main").1 (by decide),
   (createNewProfile_collision_accumulates idSan ["Main", "Main1"] "Main12" 3
      stMain "Main").2.1 (by decide),
   (createNewProfile_collision_accumulates idSan ["Main", "Main1"] "Main" 1
      stMain "Main").2.2.1 (by decide)⟩

/-! ### Claim C9 -/

/-- Claim C9: at every reachable state — starting from any freshly started
process whose stored list is duplicate-free and closing under all
operations (create, switch, identity resolution, rename request, rename
apply, delete apply, restart) — the `ActiveProfiles` list contains no
duplicate ids, and every further operation again produces a
duplicate-free list. -/
theorem reachable_activeProfiles_nodup (sanitize : String → String) (s : St)
    (h : Reachable sanitize s) :
    (activeList s).Nodup ∧ ∀ t, Step sanitize s t → (activeList t).Nodup :=
  ⟨(reachable_inv h).1, fun _ hstep => (step_inv (reachable_inv h) hstep).1⟩

/-- Claim C9, witness: the quiescent one-profile state is an initial state,
and the create operation from it keeps the list duplicate-free. -/
theorem reachable_activeProfiles_nodup_witness :
    (activeList stQuiet).Nodup ∧
    (activeList (createNewProfile idSan (some "Other") stQuiet)).Nodup := by
  have h := reachable_activeProfiles_nodup idSan stQuiet
    (Reachable.init stQuiet (by decide) rfl rfl)
  exact ⟨h.1, h.2 _ (Step.create (some "Other") stQuiet rfl)⟩

end Firebot
